import Mathlib

/-!
Verification development for the console-session engine of pteroCraft
(source files: websocket_manager.py, config.py, bot.py).

The Python source is shallowly embedded: pure helpers become Lean
functions, the asynchronous loops become explicit functions over traces
of environment events, Python exceptions become explicit constructors or
Except results, and the regular-expression engine of the single compiled
pattern is implemented character by character.
-/

/- ------------------------------------------------------------------
   AnsiStripper (websocket_manager.py lines 21-30).

   ansi_escape_pattern matches an ESC byte followed by either one byte
   in the class 0x40-0x5A, 0x5C-0x5F, or by the byte 0x5B, then any
   number of bytes 0x30-0x3F, then any number of bytes 0x20-0x2F, then
   one byte 0x40-0x7E.  strip_ansi substitutes the empty string for
   every non-overlapping match, scanning left to right.
   ------------------------------------------------------------------ -/

/-- The ESC character (0x1B) that begins every escape sequence recognised
by ansi_escape_pattern. -/
def escChar : Char := Char.ofNat 27

/-- Character class of the single-character escape alternative in the
pattern, written there as a class covering 0x40-0x5A and 0x5C-0x5F. -/
def isFe (c : Char) : Bool :=
  decide (0x40 ≤ c.toNat ∧ c.toNat ≤ 0x5A) || decide (0x5C ≤ c.toNat ∧ c.toNat ≤ 0x5F)

/-- CSI parameter bytes, the class written 0-? in the pattern (0x30-0x3F). -/
def isCsiParam (c : Char) : Bool :=
  decide (0x30 ≤ c.toNat ∧ c.toNat ≤ 0x3F)

/-- CSI intermediate bytes, the class from space to slash (0x20-0x2F). -/
def isCsiInter (c : Char) : Bool :=
  decide (0x20 ≤ c.toNat ∧ c.toNat ≤ 0x2F)

/-- CSI final bytes, the class from 0x40 to 0x7E. -/
def isCsiFinal (c : Char) : Bool :=
  decide (0x40 ≤ c.toNat ∧ c.toNat ≤ 0x7E)

/-- Attempt to match the part of ansi_escape_pattern that follows the ESC
character against the given character list.  Returns the remainder after
the match, or none when the pattern does not match here.  The two regex
alternatives are a single Fe byte, or 0x5B followed by parameter bytes,
intermediate bytes and one final byte; the three CSI classes are disjoint
so the greedy stars need no backtracking. -/
def matchEsc : List Char → Option (List Char)
  | [] => none
  | c :: cs =>
    if isFe c then some cs
    else if c.toNat = 0x5B then
      match (cs.dropWhile isCsiParam).dropWhile isCsiInter with
      | f :: rest => if isCsiFinal f then some rest else none
      | [] => none
    else none

theorem length_dropWhile_le (p : α → Bool) (l : List α) :
    (l.dropWhile p).length ≤ l.length := by
  induction l with
  | nil => simp [List.dropWhile]
  | cons a t ih =>
    by_cases h : p a
    · simp [List.dropWhile, h]
      omega
    · simp [List.dropWhile, h]

theorem matchEsc_length {l r : List Char} (h : matchEsc l = some r) :
    r.length + 1 ≤ l.length := by
  match l with
  | [] => simp [matchEsc] at h
  | c :: cs =>
    simp only [matchEsc] at h
    by_cases hfe : isFe c
    · simp [hfe] at h
      simp [← h]
    · simp [hfe] at h
      by_cases hb : c.toNat = 0x5B
      · simp [hb] at h
        have hd : ((cs.dropWhile isCsiParam).dropWhile isCsiInter).length ≤ cs.length := by
          calc ((cs.dropWhile isCsiParam).dropWhile isCsiInter).length
              ≤ (cs.dropWhile isCsiParam).length := length_dropWhile_le _ _
            _ ≤ cs.length := length_dropWhile_le _ _
        match hm : (cs.dropWhile isCsiParam).dropWhile isCsiInter with
        | [] => simp [hm] at h
        | f :: rest =>
          simp [hm] at h
          by_cases hf : isCsiFinal f
          · simp [hf] at h
            rw [hm] at hd
            simp at hd
            simp [← h]
            omega
          · simp [hf] at h
      · simp [hb] at h

/-- One pass of re.sub with ansi_escape_pattern, written with explicit
fuel so that the recursion is structural: at each position, if the
character is ESC and the rest matches the pattern tail, the whole match is
removed and scanning resumes after it; otherwise the character is kept and
scanning resumes at the next position, exactly as re.sub does. -/
def stripAnsiGo : Nat → List Char → List Char
  | 0, l => l
  | _ + 1, [] => []
  | fuel + 1, c :: cs =>
    if c = escChar then
      match matchEsc cs with
      | some rest => stripAnsiGo fuel rest
      | none => c :: stripAnsiGo fuel cs
    else c :: stripAnsiGo fuel cs

/-- ansi_escape_pattern.sub applied to a character list. -/
def stripAnsiChars (l : List Char) : List Char := stripAnsiGo l.length l

theorem stripAnsiGo_fuel :
    ∀ (n : Nat) (l : List Char) (fuel fuel2 : Nat), l.length ≤ n →
      l.length ≤ fuel → l.length ≤ fuel2 →
      stripAnsiGo fuel l = stripAnsiGo fuel2 l := by
  intro n
  induction n with
  | zero =>
    intro l fuel fuel2 h0 h1 h2
    match l with
    | [] =>
      match fuel, fuel2 with
      | 0, 0 => rfl
      | 0, _ + 1 => rfl
      | _ + 1, 0 => rfl
      | _ + 1, _ + 1 => rfl
    | c :: cs => simp at h0
  | succ m ih =>
    intro l fuel fuel2 h0 h1 h2
    match l with
    | [] =>
      match fuel, fuel2 with
      | 0, 0 => rfl
      | 0, _ + 1 => rfl
      | _ + 1, 0 => rfl
      | _ + 1, _ + 1 => rfl
    | c :: cs =>
      match fuel, fuel2 with
      | f1 + 1, f2 + 1 =>
        simp at h0 h1 h2
        simp only [stripAnsiGo]
        by_cases hc : c = escChar
        · simp only [hc, if_pos rfl]
          match hm : matchEsc cs with
          | some rest =>
            have hr := matchEsc_length hm
            exact ih rest f1 f2 (by omega) (by omega) (by omega)
          | none =>
            rw [ih cs f1 f2 (by omega) (by omega) (by omega)]
        · simp only [if_neg hc]
          rw [ih cs f1 f2 (by omega) (by omega) (by omega)]

theorem stripAnsiChars_nil : stripAnsiChars [] = [] := rfl

theorem stripAnsiChars_cons (c : Char) (cs : List Char) :
    stripAnsiChars (c :: cs) =
      if c = escChar then
        match matchEsc cs with
        | some rest => stripAnsiChars rest
        | none => c :: stripAnsiChars cs
      else c :: stripAnsiChars cs := by
  show stripAnsiGo (cs.length + 1) (c :: cs) = _
  simp only [stripAnsiGo]
  by_cases hc : c = escChar
  · simp only [if_pos hc]
    match hm : matchEsc cs with
    | some rest =>
      have := matchEsc_length hm
      exact stripAnsiGo_fuel cs.length rest cs.length rest.length (by omega) (by omega)
        (by omega)
    | none => rfl
  · simp only [if_neg hc]
    rfl

/-- strip_ansi (websocket_manager.py lines 24-30) restricted to actual
strings, for which the isinstance branch is not taken. -/
def strip_ansi (s : String) : String := String.mk (stripAnsiChars s.data)

/-- True when some position of the list begins a match of
ansi_escape_pattern, i.e. when re.sub would remove something. -/
def containsEscape : List Char → Bool
  | [] => false
  | c :: cs => (c = escChar && (matchEsc cs).isSome) || containsEscape cs

theorem stripAnsiChars_of_no_escape :
    ∀ {l : List Char}, containsEscape l = false → stripAnsiChars l = l := by
  intro l
  induction l with
  | nil => intro _; rfl
  | cons c cs ih =>
    intro h
    rw [containsEscape, Bool.or_eq_false_iff] at h
    obtain ⟨h1, h2⟩ := h
    rw [stripAnsiChars_cons]
    by_cases hc : c = escChar
    · have hm : matchEsc cs = none := by
        rw [hc] at h1
        simpa using h1
      simp [hc, hm, ih h2]
    · simp [hc, ih h2]

/-- Python str.strip() with no argument: remove leading and trailing
whitespace. -/
def pyStrip (s : String) : String :=
  String.mk (((s.data.dropWhile Char.isWhitespace).reverse.dropWhile
    Char.isWhitespace).reverse)

/-- Python str.lower() restricted to ASCII case folding. -/
def pyLower (s : String) : String := String.mk (s.data.map Char.toLower)

/-- Python str.endswith(suffix). -/
def pyEndsWith (s suffix : String) : Bool := suffix.data.isSuffixOf s.data

/- ------------------------------------------------------------------
   strip_ansi on arbitrary Python values (websocket_manager.py 24-30):
   non-strings are first converted with str(), and when that conversion
   itself raises the function returns the empty string.
   ------------------------------------------------------------------ -/

/-- A Python value passed to strip_ansi: either an actual str, or a
non-string object whose str() conversion either returns a string or
raises. -/
inductive PyValue where
  | str (s : String)
  | other (conv : Except Unit String)

/-- strip_ansi exactly as written: isinstance check, str() conversion
guarded by try/except returning the empty string, then the regex
substitution on the resulting string. -/
def strip_ansi_any : PyValue → String
  | PyValue.str s => strip_ansi s
  | PyValue.other (Except.ok s) => strip_ansi s
  | PyValue.other (Except.error _) => ""

/- ------------------------------------------------------------------
   RingBuffer: log_buffer = deque(maxlen=LOG_BUFFER_SIZE)
   (websocket_manager.py line 44, config.py line 29, appends at
   websocket_manager.py line 176)
   ------------------------------------------------------------------ -/

/-- LOG_BUFFER_SIZE from config.py line 29. -/
def LOG_BUFFER_SIZE : Nat := 500

/-- deque.append with maxlen = cap: when the buffer is full the single
oldest (leftmost) element is evicted. -/
def ringAppend (cap : Nat) (buf : List α) (x : α) : List α :=
  if buf.length < cap then buf ++ [x] else buf.drop 1 ++ [x]

/-- Appending a whole sequence of lines in arrival order. -/
def appendAll (cap : Nat) (buf : List α) (xs : List α) : List α :=
  xs.foldl (ringAppend cap) buf

theorem appendAll_eq_drop (cap : Nat) (hcap : 0 < cap) :
    ∀ (xs buf : List α), buf.length ≤ cap →
      appendAll cap buf xs = (buf ++ xs).drop ((buf ++ xs).length - cap) := by
  intro xs
  induction xs with
  | nil =>
    intro buf hb
    have : buf.length - cap = 0 := by omega
    simp [appendAll, this]
  | cons x xs ih =>
    intro buf hb
    have step : appendAll cap buf (x :: xs) = appendAll cap (ringAppend cap buf x) xs := rfl
    rw [step]
    by_cases hlt : buf.length < cap
    · have hra : ringAppend cap buf x = buf ++ [x] := by simp [ringAppend, hlt]
      rw [hra, ih (buf ++ [x]) (by simp; omega)]
      simp
    · cases buf with
      | nil => simp at hlt; omega
      | cons y t =>
        have hlen : t.length + 1 = cap := by simp at hb hlt; omega
        have hra : ringAppend cap (y :: t) x = t ++ [x] := by
          simp [ringAppend, hlt]
          omega
        rw [hra, ih (t ++ [x]) (by simp; omega)]
        have e1 : ((t ++ [x]) ++ xs).length - cap = xs.length := by simp; omega
        have e2 : ((y :: t) ++ x :: xs).length - cap = xs.length + 1 := by simp; omega
        rw [e1, e2]
        simp [List.drop_succ_cons, List.append_assoc]

/- ------------------------------------------------------------------
   CommandCorrelator (websocket_manager.py lines 250-381).

   A compiled regex from config.COMMAND_RESPONSES is embedded as the
   Boolean test its search method performs on a cleaned line, paired
   with the outcome tag it is listed with (config.py lines 36-49).
   ------------------------------------------------------------------ -/

/-- A matcher tests a cleaned console line, as pattern.search does. -/
abbrev Matcher := String → Bool

/-- Cleaning applied to each buffered line before matching:
strip_ansi(raw_line).strip() (websocket_manager.py line 298). -/
def cleanLine (raw : String) : String := pyStrip (strip_ansi raw)

/-- The inner loop over the ordered (matcher, outcome-tag) list of one
pattern family: return the first listed pair whose matcher accepts the
line (websocket_manager.py lines 303-308). -/
def firstMatch (specs : List (Matcher × String)) (line : String) :
    Option (Matcher × String) :=
  specs.find? (fun p => p.1 line)

/-- A raw buffered line is a candidate response when its cleaned form is
non-empty and some matcher of the family accepts it. -/
def matchesLineB (specs : List (Matcher × String)) (raw : String) : Bool :=
  !(cleanLine raw == "") && (firstMatch specs (cleanLine raw)).isSome

/-- One reverse scan of a snapshot, given newest first: skip lines whose
cleaned form is empty, return on the first line some matcher accepts
(websocket_manager.py lines 296-308). -/
def scanNewestFirst (specs : List (Matcher × String)) :
    List String → Option ((Matcher × String) × String)
  | [] => none
  | raw :: older =>
    let cl := cleanLine raw
    if cl == "" then scanNewestFirst specs older
    else
      match firstMatch specs cl with
      | some pm => some (pm, raw)
      | none => scanNewestFirst specs older

/-- The scan of one buffer snapshot held oldest first, walking indices
from the end down to zero as the source does. -/
def scanForResponse (specs : List (Matcher × String)) (snapshot : List String) :
    Option ((Matcher × String) × String) :=
  scanNewestFirst specs snapshot.reverse

/-- The polling loop: each element of the list is the snapshot taken at
one poll tick before the timeout expires; the loop stops at the first
successful scan.  Returns the result together with the number of ticks
executed. -/
def pollWith (scan : List String → Option α) : List (List String) → Option α × Nat
  | [] => (none, 0)
  | snap :: rest =>
    match scan snap with
    | some r => (some r, 1)
    | none =>
      let p := pollWith scan rest
      (p.1, p.2 + 1)

/-- send_command_and_find_response (websocket_manager.py lines 250-317).
Arguments: the is_authenticated flag at call time, the pattern-family
lookup result (none models a missing key, and the empty list is rejected
by the same falsiness test), whether the command frame send succeeds,
and the snapshots seen by the poll ticks.  Result: the returned value,
whether a send was attempted, and the number of poll ticks executed. -/
def send_command_and_find_response (is_authenticated : Bool)
    (response_patterns : Option (List (Matcher × String))) (send_ok : Bool)
    (snapshots : List (List String)) :
    Option ((Matcher × String) × String) × Bool × Nat :=
  if !is_authenticated then (none, false, 0)
  else
    match response_patterns with
    | none => (none, false, 0)
    | some specs =>
      if specs.isEmpty then (none, false, 0)
      else if !send_ok then (none, true, 0)
      else
        let p := pollWith (scanForResponse specs) snapshots
        (p.1, true, p.2)

/-- The per-snapshot reverse scan of send_command_and_await_strings
(websocket_manager.py lines 358-373): lines are cleaned and lowercased,
empty cleaned lines skipped, and the first line ending with one of the
pre-cleaned suffixes yields the cleaned form of the original expected
string that produced the suffix (or the cleaned line itself when no
original maps back to it). -/
def scanSuffixes (cleaned_expected : List String) (expected_strings : List String) :
    List String → Option String
  | [] => none
  | raw :: older =>
    let cl := pyLower (pyStrip (strip_ansi raw))
    if cl == "" then scanSuffixes cleaned_expected expected_strings older
    else
      match cleaned_expected.find? (fun suf => pyEndsWith cl suf) with
      | some suf =>
        match expected_strings.find? (fun s => pyLower (pyStrip (strip_ansi s)) == suf) with
        | some orig => some (pyStrip (strip_ansi orig))
        | none => some cl
      | none => scanSuffixes cleaned_expected expected_strings older

/-- send_command_and_await_strings (websocket_manager.py lines 319-381),
with the same conventions as send_command_and_find_response. -/
def send_command_and_await_strings (is_authenticated : Bool)
    (expected_strings : List String) (send_ok : Bool)
    (snapshots : List (List String)) : Option String × Bool × Nat :=
  if !is_authenticated then (none, false, 0)
  else if expected_strings.isEmpty then (none, false, 0)
  else
    let cleaned := (expected_strings.filter (fun s => !(s == ""))).map
      (fun s => pyLower (pyStrip (strip_ansi s)))
    if cleaned.isEmpty then (none, false, 0)
    else if !send_ok then (none, true, 0)
    else
      let p := pollWith (scanSuffixes cleaned expected_strings) snapshots
      (p.1, true, p.2)

/- ------------------------------------------------------------------
   ReconnectDelay (websocket_manager.py lines 186-191, config.py 25-27).
   Floats are modelled as rationals; the random.uniform sample is an
   explicit jitter argument constrained by hypotheses where needed.
   ------------------------------------------------------------------ -/

/-- WS_RECONNECT_MIN_DELAY from config.py line 25. -/
def WS_RECONNECT_MIN_DELAY : ℚ := 1

/-- WS_RECONNECT_MAX_DELAY from config.py line 26. -/
def WS_RECONNECT_MAX_DELAY : ℚ := 60

/-- WS_RECONNECT_FACTOR from config.py line 27. -/
def WS_RECONNECT_FACTOR : ℚ := 2

/-- _update_reconnect_delay(i, r): d is the current _reconnect_delay and
j the value random.uniform returned, which the source draws from the
closed interval between 0.1 and one tenth of the intermediate delay plus
0.1. -/
def update_reconnect_delay (d : ℚ) (i : Bool) (r : Bool) (j : ℚ) : ℚ :=
  let d1 := if r || !i then WS_RECONNECT_MIN_DELAY
            else min (d * WS_RECONNECT_FACTOR) WS_RECONNECT_MAX_DELAY
  min (d1 + j) WS_RECONNECT_MAX_DELAY

/- ------------------------------------------------------------------
   AuthHandshake (websocket_manager.py lines 122-148).
   ------------------------------------------------------------------ -/

/-- The behaviours the auth exchange can meet, one constructor per
control path of _authenticate: the send raising, asyncio.wait_for timing
out, the connection closing during the wait, the receive or the JSON
decode raising, a reply decoding to a non-object JSON value, or a reply
decoding to an object whose event field is read with data.get. -/
inductive AuthReply where
  | sendError
  | recvTimeout
  | closed
  | undecodable
  | nonObject
  | object (event : Option String)
deriving DecidableEq

/-- _authenticate: the three except blocks return False, an object reply
succeeds exactly when its event field equals the success tag, and a
non-object reply makes the data.get call on line 143 raise outside any
try block, which the Except.error result records. -/
def authenticate : AuthReply → Except Unit Bool
  | AuthReply.sendError => Except.ok false
  | AuthReply.recvTimeout => Except.ok false
  | AuthReply.closed => Except.ok false
  | AuthReply.undecodable => Except.ok false
  | AuthReply.nonObject => Except.error ()
  | AuthReply.object ev => Except.ok (ev == some ("auth success"))

/- ------------------------------------------------------------------
   MessageIngestor: _message_loop (websocket_manager.py lines 150-184).
   ------------------------------------------------------------------ -/

/-- What one received frame decodes to: a JSON object with its event
field and args list, a JSON value that is not an object (on which
data.get raises), or text json.loads rejects. -/
inductive Payload where
  | object (event : Option String) (args : List String)
  | nonObject
  | undecodable
deriving DecidableEq

/-- One outcome of awaiting ws.recv. -/
inductive RecvEvent where
  | frame (p : Payload)
  | closedOK
  | closedError
  | recvFail
deriving DecidableEq

/-- Why _message_loop returned. -/
inductive LoopExit where
  | closedOK
  | closedError
  | tokenEvent
  | unexpectedError
deriving DecidableEq

/-- _message_loop over a trace of receive outcomes, carrying log_buffer.
A JSONDecodeError skips the frame; ConnectionClosedOK and
ConnectionClosedError break; any other receive or decode error breaks
with the generic handler, including the AttributeError that data.get
raises on a non-object payload; console output appends its first arg to
the buffer; status is ignored; the two token events break; unknown
events are ignored.  The none result means the trace ended with the
loop still listening. -/
def message_loop (buf : List String) : List RecvEvent → List String × Option LoopExit
  | [] => (buf, none)
  | RecvEvent.closedOK :: _ => (buf, some LoopExit.closedOK)
  | RecvEvent.closedError :: _ => (buf, some LoopExit.closedError)
  | RecvEvent.recvFail :: _ => (buf, some LoopExit.unexpectedError)
  | RecvEvent.frame Payload.undecodable :: rest => message_loop buf rest
  | RecvEvent.frame Payload.nonObject :: _ => (buf, some LoopExit.unexpectedError)
  | RecvEvent.frame (Payload.object ev args) :: rest =>
    if ev == some ("console output") then
      match args with
      | [] => message_loop buf rest
      | a :: _ => message_loop (ringAppend LOG_BUFFER_SIZE buf a) rest
    else if ev == some ("status") then message_loop buf rest
    else if ev == some ("token expiring") || ev == some ("token expired") then
      (buf, some LoopExit.tokenEvent)
    else message_loop buf rest

/-- The exit reason one receive outcome causes, if any. -/
def terminatingEvent : RecvEvent → Option LoopExit
  | RecvEvent.closedOK => some LoopExit.closedOK
  | RecvEvent.closedError => some LoopExit.closedError
  | RecvEvent.recvFail => some LoopExit.unexpectedError
  | RecvEvent.frame Payload.undecodable => none
  | RecvEvent.frame Payload.nonObject => some LoopExit.unexpectedError
  | RecvEvent.frame (Payload.object ev _) =>
    if ev == some ("token expiring") || ev == some ("token expired") then
      some LoopExit.tokenEvent
    else none

/- ------------------------------------------------------------------
   ConnectionSupervisor: _websocket_listener (websocket_manager.py
   lines 77-120).  The loop is embedded as a transition system driven
   by one outcome per iteration; each iteration records the states
   observable at its suspension points (cooperative scheduling means
   these are the only points another task can read the flags).
   ------------------------------------------------------------------ -/

/-- The two readable flags _is_connected and is_authenticated. -/
structure ConnState where
  is_connected : Bool
  is_authenticated : Bool
deriving DecidableEq

/-- How one iteration of the while-True body ends.  Cancel outcomes name
the await at which asyncio.CancelledError is delivered: during the
details fetch (line 80, outside the try), while opening the socket,
during _authenticate, or during _message_loop (all inside the try whose
handler on lines 108-111 clears _is_connected and re-raises). -/
inductive IterOutcome where
  | fetchFail
  | fetchCancel
  | connectFail
  | connectCancel
  | authFail
  | authCancel
  | sessionEnd
  | sessionCancel
deriving DecidableEq

/-- One iteration of _websocket_listener from state s: the list of
states observable at the suspension points it reaches, then either the
state the next iteration starts from (Sum.inl) or the state left behind
when CancelledError is re-raised (Sum.inr).  Line 79 first clears
is_authenticated; a successful connect sets _is_connected on line 94; a
failed auth continues with _is_connected still true; after
_message_loop returns, lines 115-116 clear both flags; the cancellation
handler clears only _is_connected. -/
def iterStep (s : ConnState) : IterOutcome → List ConnState × (ConnState ⊕ ConnState) :=
  let s0 : ConnState := ⟨s.is_connected, false⟩
  let sDown : ConnState := ⟨false, false⟩
  let sConn : ConnState := ⟨true, false⟩
  let sAuth : ConnState := ⟨true, true⟩
  fun o =>
    match o with
    | IterOutcome.fetchFail => ([s0, s0], Sum.inl s0)
    | IterOutcome.fetchCancel => ([s0], Sum.inr s0)
    | IterOutcome.connectFail => ([s0, sDown], Sum.inl sDown)
    | IterOutcome.connectCancel => ([s0], Sum.inr sDown)
    | IterOutcome.authFail => ([s0, sConn, sConn], Sum.inl sConn)
    | IterOutcome.authCancel => ([s0, sConn], Sum.inr sDown)
    | IterOutcome.sessionEnd => ([s0, sConn, sAuth, sDown], Sum.inl sDown)
    | IterOutcome.sessionCancel => ([s0, sConn, sAuth], Sum.inr ⟨false, true⟩)

/-- Run _websocket_listener from state s through a trace of iteration
outcomes: the concatenated observable states, the state when the run
stops, and whether it stopped because CancelledError propagated.  A
cancellation consumes no further outcomes: no retry is scheduled. -/
def listener_run (s : ConnState) : List IterOutcome → List ConnState × ConnState × Bool
  | [] => ([], s, false)
  | o :: rest =>
    match iterStep s o with
    | (tr, Sum.inl s2) =>
      let q := listener_run s2 rest
      (tr ++ q.1, q.2)
    | (tr, Sum.inr f) => (tr, f, true)

/-- The outcomes that deliver asyncio.CancelledError. -/
def isCancel : IterOutcome → Bool
  | IterOutcome.fetchCancel => true
  | IterOutcome.connectCancel => true
  | IterOutcome.authCancel => true
  | IterOutcome.sessionCancel => true
  | _ => false

/-- An example matcher used by concrete witness instances: accepts
exactly the line ok. -/
def okMatcher : Matcher := fun s => s == "ok"

/-- An example matcher accepting lines that end with the letter b. -/
def endsBMatcher : Matcher := fun s => pyEndsWith s ("b")

/-- An example matcher accepting exactly the line ab; it overlaps with
endsBMatcher. -/
def eqAbMatcher : Matcher := fun s => s == "ab"

/- ------------------------------------------------------------------
   Helper lemmas.
   ------------------------------------------------------------------ -/

theorem find?_decomp (p : α → Bool) :
    ∀ l : List α, (∃ x ∈ l, p x = true) →
      ∃ l1 a l2, l = l1 ++ a :: l2 ∧ (∀ y ∈ l1, p y = false) ∧ p a = true ∧
        l.find? p = some a := by
  intro l
  induction l with
  | nil =>
    rintro ⟨x, hx, _⟩
    exact absurd hx (List.not_mem_nil x)
  | cons c t ih =>
    intro h
    by_cases hc : p c = true
    · exact ⟨[], c, t, rfl, by simp, hc, List.find?_cons_of_pos _ hc⟩
    · have he : ∃ x ∈ t, p x = true := by
        rcases h with ⟨x, hx, hpx⟩
        rcases List.mem_cons.mp hx with rfl | hxt
        · exact absurd hpx hc
        · exact ⟨x, hxt, hpx⟩
      rcases ih he with ⟨l1, a, l2, heq, hall, hpa, hfind⟩
      refine ⟨c :: l1, a, l2, by rw [heq]; rfl, ?_, hpa, ?_⟩
      · intro y hy
        rcases List.mem_cons.mp hy with rfl | h2
        · simpa using hc
        · exact hall y h2
      · rw [List.find?_cons_of_neg _ (by simpa using hc)]
        exact hfind

theorem scanNewestFirst_eq_find (specs : List (Matcher × String)) :
    ∀ l : List String, scanNewestFirst specs l =
      (l.find? (matchesLineB specs)).bind
        (fun raw => (firstMatch specs (cleanLine raw)).map (fun pm => (pm, raw))) := by
  intro l
  induction l with
  | nil => rfl
  | cons raw older ih =>
    simp only [scanNewestFirst]
    by_cases hcl : (cleanLine raw == "") = true
    · have hm : matchesLineB specs raw = false := by simp [matchesLineB, hcl]
      rw [if_pos hcl, List.find?_cons_of_neg _ (by simp [hm]), ih]
    · rw [if_neg hcl]
      match hpm : firstMatch specs (cleanLine raw) with
      | some pm =>
        have hm : matchesLineB specs raw = true := by
          simp [matchesLineB, hpm]
          simpa using hcl
        rw [List.find?_cons_of_pos _ hm]
        simp [hpm]
      | none =>
        have hm : matchesLineB specs raw = false := by
          simp [matchesLineB, hpm]
        rw [List.find?_cons_of_neg _ (by simp [hm]), ih]

theorem pollWith_skip (scan : List String → Option α) :
    ∀ (earlier rest : List (List String)), (∀ t ∈ earlier, scan t = none) →
      pollWith scan (earlier ++ rest) =
        ((pollWith scan rest).1, (pollWith scan rest).2 + earlier.length) := by
  intro earlier
  induction earlier with
  | nil =>
    intro rest _
    simp
  | cons t ts ih =>
    intro rest h
    have ht : scan t = none := h t (by simp)
    have ih2 := ih rest (fun x hx => h x (by simp [hx]))
    simp [pollWith, ht, ih2]
    omega

/- ------------------------------------------------------------------
   Claim theorems.
   ------------------------------------------------------------------ -/

/-- Claim C1 (reverse-scan recency): whenever a snapshot reached during
polling (all earlier poll ticks having found nothing) contains at least
one line whose stripped, trimmed form is non-empty and accepted by some
matcher of the requested family, send_command_and_find_response returns
on that tick with the newest such line in arrival order, paired with its
first-listed accepting matcher; lines with empty cleaned form and lines
no matcher accepts are skipped, and older matching lines are ignored. -/
theorem reverse_scan_recency
    (specs : List (Matcher × String)) (earlier later : List (List String))
    (snap : List String) (hne : specs ≠ [])
    (hEarlier : ∀ t ∈ earlier, scanForResponse specs t = none)
    (hHit : ∃ raw ∈ snap, matchesLineB specs raw = true) :
    ∃ pm raw,
      send_command_and_find_response true (some specs) true (earlier ++ snap :: later) =
        (some (pm, raw), true, earlier.length + 1) ∧
      matchesLineB specs raw = true ∧
      firstMatch specs (cleanLine raw) = some pm ∧
      ∃ older newer, snap = older ++ raw :: newer ∧
        ∀ x ∈ newer, matchesLineB specs x = false := by
  have hHitRev : ∃ raw ∈ snap.reverse, matchesLineB specs raw = true := by
    rcases hHit with ⟨raw, hmem, hraw⟩
    exact ⟨raw, List.mem_reverse.mpr hmem, hraw⟩
  rcases find?_decomp _ snap.reverse hHitRev with ⟨l1, a, l2, heq, hall, hpa, hfind⟩
  have hpmEx : ∃ pm, firstMatch specs (cleanLine a) = some pm := by
    have : (firstMatch specs (cleanLine a)).isSome := by
      have := hpa
      simp [matchesLineB] at this
      exact this.2
    exact Option.isSome_iff_exists.mp this
  rcases hpmEx with ⟨pm, hpm⟩
  have hsnap : scanForResponse specs snap = some (pm, a) := by
    rw [scanForResponse, scanNewestFirst_eq_find, hfind]
    simp [hpm]
  obtain ⟨q, qs, rfl⟩ : ∃ q qs, specs = q :: qs := by
    cases specs with
    | nil => exact absurd rfl hne
    | cons q qs => exact ⟨q, qs, rfl⟩
  have hpoll1 : pollWith (scanForResponse (q :: qs)) (snap :: later) = (some (pm, a), 1) := by
    simp [pollWith, hsnap]
  have hpoll : pollWith (scanForResponse (q :: qs)) (earlier ++ snap :: later) =
      (some (pm, a), earlier.length + 1) := by
    rw [pollWith_skip _ earlier (snap :: later) hEarlier, hpoll1]
    simp [Nat.add_comm]
  refine ⟨pm, a, ?_, hpa, hpm, ?_⟩
  · show (let p := pollWith (scanForResponse (q :: qs)) (earlier ++ snap :: later)
      ((p.1, true, p.2) : Option ((Matcher × String) × String) × Bool × Nat)) = _
    rw [hpoll]
  · refine ⟨l2.reverse, l1.reverse, ?_, ?_⟩
    · have : snap = snap.reverse.reverse := (List.reverse_reverse snap).symm
      rw [this, heq]
      simp
    · intro x hx
      exact hall x (List.mem_reverse.mp hx)

theorem reverse_scan_recency_witness :
    ∃ pm raw,
      send_command_and_find_response true (some [(okMatcher, "TAG")]) true
          [[("no"), ("ok")]] =
        (some (pm, raw), true, 1) ∧
      matchesLineB [(okMatcher, "TAG")] raw = true ∧
      firstMatch [(okMatcher, "TAG")] (cleanLine raw) = some pm ∧
      ∃ older newer, [("no"), ("ok")] = older ++ raw :: newer ∧
        ∀ x ∈ newer, matchesLineB [(okMatcher, "TAG")] x = false :=
  reverse_scan_recency [(okMatcher, "TAG")] [] [] [("no"), ("ok")]
    (by simp)
    (by intro t ht; simp at ht)
    ⟨("ok"), by simp, by decide⟩

/-- Claim C2 (auth gating): when is_authenticated is false at call time,
send_command_and_find_response and send_command_and_await_strings both
return none at once: no send is attempted and no poll tick runs. -/
theorem auth_gating (patterns : Option (List (Matcher × String))) (send_ok : Bool)
    (snapshots : List (List String)) (expected : List String) :
    send_command_and_find_response false patterns send_ok snapshots = (none, false, 0) ∧
    send_command_and_await_strings false expected send_ok snapshots = (none, false, 0) :=
  ⟨rfl, rfl⟩

/-- Claim C3 (ring-buffer bound and FIFO eviction): appending any
sequence of lines to an initially empty deque with maxlen
LOG_BUFFER_SIZE leaves at most LOG_BUFFER_SIZE lines, and the content is
exactly the last LOG_BUFFER_SIZE lines in arrival order (all of them
while the sequence is shorter), the oldest being evicted one per append
once the capacity is reached. -/
theorem ring_buffer_bound_and_fifo (xs : List String) :
    (appendAll LOG_BUFFER_SIZE [] xs).length ≤ LOG_BUFFER_SIZE ∧
    appendAll LOG_BUFFER_SIZE [] xs = xs.drop (xs.length - LOG_BUFFER_SIZE) := by
  have h := appendAll_eq_drop LOG_BUFFER_SIZE (by decide) xs ([] : List String) (by simp)
  simp only [List.nil_append] at h
  refine ⟨?_, h⟩
  rw [h, List.length_drop]
  omega

/-- Claim C9 (first-listed matcher wins): when two matchers of an
ordered pattern family both accept a cleaned line, the pair the scan
returns for that line is the first listed accepting one: every pair
before it is rejected, and it sits no later than the first of the two
given matchers. -/
theorem first_listed_matcher_wins
    (specs : List (Matcher × String)) (line : String)
    (pre mid post : List (Matcher × String)) (p1 p2 : Matcher × String)
    (hspecs : specs = pre ++ p1 :: mid ++ p2 :: post)
    (h1 : p1.1 line = true) (h2 : p2.1 line = true) :
    ∃ l1 q l2, specs = l1 ++ q :: l2 ∧ (∀ x ∈ l1, x.1 line = false) ∧
      q.1 line = true ∧ l1.length ≤ pre.length ∧
      firstMatch specs line = some q := by
  have hex : ∃ p ∈ specs, (fun p : Matcher × String => p.1 line) p = true := by
    refine ⟨p1, ?_, h1⟩
    rw [hspecs]
    simp
  rcases find?_decomp _ specs hex with ⟨l1, q, l2, heq, hall, hq, hfind⟩
  refine ⟨l1, q, l2, heq, hall, hq, ?_, hfind⟩
  by_contra hlen
  push_neg at hlen
  have heq2 : l1 ++ q :: l2 = pre ++ p1 :: (mid ++ p2 :: post) := by
    rw [← heq, hspecs]
    simp
  rcases List.append_eq_append_iff.mp heq2 with ⟨e, he1, _⟩ | ⟨f, hf1, hf2⟩
  · have : pre.length = l1.length + e.length := by rw [he1]; simp
    omega
  · match f, hf2 with
    | [], hf2 =>
      have : l1.length = pre.length := by rw [hf1]; simp
      omega
    | g :: t, hf2 =>
      have hg : g = p1 := by
        have := hf2
        simp at this
        exact this.1.symm
      have hmem : p1 ∈ l1 := by
        rw [hf1, ← hg]
        simp
      have := hall p1 hmem
      simp [h1] at this

theorem first_listed_matcher_wins_witness :
    ∃ l1 q l2,
      [(endsBMatcher, "A"), (eqAbMatcher, "B")] = l1 ++ q :: l2 ∧
      (∀ x ∈ l1, x.1 ("ab") = false) ∧ q.1 ("ab") = true ∧
      l1.length ≤ ([] : List (Matcher × String)).length ∧
      firstMatch [(endsBMatcher, "A"), (eqAbMatcher, "B")] ("ab") = some q :=
  first_listed_matcher_wins [(endsBMatcher, "A"), (eqAbMatcher, "B")] ("ab")
    [] [] [] (endsBMatcher, "A") (eqAbMatcher, "B") rfl (by decide) (by decide)

/-- Claim C5, corrected form: _authenticate returns false on a send
error, a receive timeout, a closed connection, and a reply the JSON
decoder rejects; it returns true exactly on an object reply whose event
field is the success tag; but a reply that decodes to a non-object JSON
value makes it raise (the data.get call on line 143 sits outside every
try block), which is the one behaviour where it does not return a
boolean. -/
theorem auth_handshake_totality (r : AuthReply) :
    (authenticate r = Except.error () ↔ r = AuthReply.nonObject) ∧
    (authenticate r = Except.ok true ↔ r = AuthReply.object (some ("auth success"))) := by
  cases r <;> simp [authenticate]

/-- Counterexample to claim C5 as stated: on a malformed (non-object)
reply, _authenticate raises instead of returning false. -/
theorem authenticate_raises_on_non_object :
    authenticate AuthReply.nonObject = Except.error () ∧
    authenticate AuthReply.nonObject ≠ Except.ok false :=
  ⟨rfl, by simp [authenticate]⟩

theorem message_loop_cons_some (buf : List String) (e : RecvEvent)
    (rest : List RecvEvent) (r : LoopExit) (h : terminatingEvent e = some r) :
    message_loop buf (e :: rest) = (buf, some r) := by
  cases e with
  | closedOK =>
    simp [terminatingEvent] at h
    subst h
    rfl
  | closedError =>
    simp [terminatingEvent] at h
    subst h
    rfl
  | recvFail =>
    simp [terminatingEvent] at h
    subst h
    rfl
  | frame p =>
    cases p with
    | undecodable => simp [terminatingEvent] at h
    | nonObject =>
      simp [terminatingEvent] at h
      subst h
      rfl
    | object ev args =>
      simp only [terminatingEvent] at h
      by_cases htok : (ev == some ("token expiring") || ev == some ("token expired")) = true
      · rw [if_pos htok] at h
        have hr : r = LoopExit.tokenEvent := by
          have := h
          simp at this
          exact this.symm
        subst hr
        have hev : ev = some ("token expiring") ∨ ev = some ("token expired") := by
          simpa using htok
        rcases hev with rfl | rfl <;> simp [message_loop]
      · rw [if_neg htok] at h
        simp at h

/-- A non-terminating receive outcome leaves the loop running: the tail
of the trace is processed from some buffer. -/
theorem message_loop_cons_none (buf : List String) (e : RecvEvent)
    (rest : List RecvEvent) (h : terminatingEvent e = none) :
    ∃ buf2, message_loop buf (e :: rest) = message_loop buf2 rest := by
  cases e with
  | closedOK => simp [terminatingEvent] at h
  | closedError => simp [terminatingEvent] at h
  | recvFail => simp [terminatingEvent] at h
  | frame p =>
    cases p with
    | undecodable => exact ⟨buf, rfl⟩
    | nonObject => simp [terminatingEvent] at h
    | object ev args =>
      have htok : (ev == some ("token expiring") || ev == some ("token expired")) = false := by
        by_contra hc
        have ht : (ev == some ("token expiring") || ev == some ("token expired")) = true := by
          revert hc
          cases (ev == some ("token expiring") || ev == some ("token expired")) <;> simp
        simp [terminatingEvent, ht] at h
      by_cases hcon : (ev == some ("console output")) = true
      · match args with
        | [] => exact ⟨buf, by simp [message_loop, hcon]⟩
        | a :: rest2 =>
          exact ⟨ringAppend LOG_BUFFER_SIZE buf a, by simp [message_loop, hcon]⟩
      · by_cases hst : (ev == some ("status")) = true
        · exact ⟨buf, by simp [message_loop, hcon, hst, htok]⟩
        · exact ⟨buf, by simp [message_loop, hcon, hst, htok]⟩

/-- Claim C4, corrected form: a payload json.loads rejects is skipped and
the listening loop continues; the loop returns exactly at the first
terminating receive outcome, and the terminating outcomes are clean
closure, error closure, a token-expiring or token-expired event, and
additionally any other receive or processing error — including a payload
that decodes to a non-object JSON value, which the generic handler turns
into loop exit rather than a skip. -/
theorem message_loop_exit_policy :
    (∀ (buf : List String) (events : List RecvEvent),
        message_loop buf (RecvEvent.frame Payload.undecodable :: events) =
          message_loop buf events) ∧
    (∀ (buf : List String) (pre : List RecvEvent) (e : RecvEvent)
        (post : List RecvEvent) (r : LoopExit),
        (∀ x ∈ pre, terminatingEvent x = none) → terminatingEvent e = some r →
        (message_loop buf (pre ++ e :: post)).2 = some r) ∧
    (∀ (buf : List String) (events : List RecvEvent),
        (∀ x ∈ events, terminatingEvent x = none) →
        (message_loop buf events).2 = none) := by
  refine ⟨fun buf events => rfl, ?_, ?_⟩
  · intro buf pre
    induction pre generalizing buf with
    | nil =>
      intro e post r _ he
      rw [List.nil_append, message_loop_cons_some buf e post r he]
    | cons x xs ih =>
      intro e post r hall he
      have hx : terminatingEvent x = none := hall x (by simp)
      rcases message_loop_cons_none buf x (xs ++ e :: post) hx with ⟨buf2, hb⟩
      rw [List.cons_append, hb]
      exact ih buf2 e post r (fun y hy => hall y (by simp [hy])) he
  · intro buf events
    induction events generalizing buf with
    | nil => intro _; rfl
    | cons x xs ih =>
      intro hall
      rcases message_loop_cons_none buf x xs (hall x (by simp)) with ⟨buf2, hb⟩
      rw [hb]
      exact ih buf2 (fun y hy => hall y (by simp [hy]))

/-- Counterexample to claim C4 as stated: a frame whose payload is valid
JSON but not an object is a malformed payload, yet the loop does not
skip it — it returns, and with a reason that is none of clean closure,
error closure or a token event. -/
theorem message_loop_exits_on_non_object_frame :
    (message_loop [] [RecvEvent.frame Payload.nonObject]).2 =
      some LoopExit.unexpectedError := rfl

/-- Concrete instance of the corrected claim C4 theorem: one skipped
undecodable frame followed by a clean closure. -/
theorem message_loop_exit_policy_witness :
    (message_loop [] ([RecvEvent.frame Payload.undecodable] ++
        RecvEvent.closedOK :: [])).2 = some LoopExit.closedOK :=
  message_loop_exit_policy.2.1 [] [RecvEvent.frame Payload.undecodable]
    RecvEvent.closedOK [] LoopExit.closedOK (by decide) (by decide)

theorem iterStep_trace_states (s : ConnState) (o : IterOutcome) (st : ConnState)
    (hmem : st ∈ (iterStep s o).1) :
    st = ⟨s.is_connected, false⟩ ∨ st = ⟨false, false⟩ ∨ st = ⟨true, false⟩ ∨
      st = ⟨true, true⟩ := by
  cases o <;> simp [iterStep] at hmem <;> tauto

/-- Claim C6, corrected form: at every state observable at a suspension
point while _websocket_listener runs, is_authenticated implies
is_connected; a cancellation consumes no further iteration outcome (no
retry is scheduled) and is reported as a cancellation; a cancellation
delivered inside the connection block leaves _is_connected false — but
the handler never clears is_authenticated, so a cancellation delivered
while the listening loop runs leaves the flags at connected = false,
authenticated = true, violating the invariant after the loop ends. -/
theorem listener_invariant_and_cancellation :
    (∀ (s : ConnState) (events : List IterOutcome) (st : ConnState),
        st ∈ (listener_run s events).1 → st.is_authenticated = true →
        st.is_connected = true) ∧
    (∀ (s : ConnState) (o : IterOutcome) (rest : List IterOutcome),
        isCancel o = true →
        listener_run s (o :: rest) = listener_run s [o] ∧
        (listener_run s (o :: rest)).2.2 = true) ∧
    (∀ (s : ConnState) (rest : List IterOutcome),
        (listener_run s (IterOutcome.connectCancel :: rest)).2.1 = ⟨false, false⟩ ∧
        (listener_run s (IterOutcome.authCancel :: rest)).2.1 = ⟨false, false⟩ ∧
        (listener_run s (IterOutcome.sessionCancel :: rest)).2.1 = ⟨false, true⟩) := by
  refine ⟨?_, ?_, ?_⟩
  · intro s events
    induction events generalizing s with
    | nil =>
      intro st hmem
      simp [listener_run] at hmem
    | cons o rest ih =>
      intro st hmem hauth
      match hstep : iterStep s o with
      | (tr, Sum.inl s2) =>
        have hrun : listener_run s (o :: rest) =
            (tr ++ (listener_run s2 rest).1, (listener_run s2 rest).2) := by
          simp [listener_run, hstep]
        rw [hrun] at hmem
        rcases List.mem_append.mp hmem with htr | hrec
        · have := iterStep_trace_states s o st (by rw [hstep]; exact htr)
          rcases this with rfl | rfl | rfl | rfl <;> simp_all
        · exact ih s2 st hrec hauth
      | (tr, Sum.inr f) =>
        have hrun : listener_run s (o :: rest) = (tr, f, true) := by
          simp [listener_run, hstep]
        rw [hrun] at hmem
        have := iterStep_trace_states s o st (by rw [hstep]; exact hmem)
        rcases this with rfl | rfl | rfl | rfl <;> simp_all
  · intro s o rest hc
    cases o <;> simp [isCancel] at hc <;> exact ⟨rfl, rfl⟩
  · intro s rest
    exact ⟨rfl, rfl, rfl⟩

/-- Counterexample to claim C6 as stated: cancellation delivered during
the listening state leaves is_authenticated true while is_connected is
false — the state is not Disconnected-with-both-flags-false, and the
final reachable state itself violates authenticated-implies-connected. -/
theorem listener_cancellation_leaves_authenticated :
    (listener_run ⟨false, false⟩ [IterOutcome.sessionCancel]).2.1.is_authenticated = true ∧
    (listener_run ⟨false, false⟩ [IterOutcome.sessionCancel]).2.1.is_connected = false ∧
    (listener_run ⟨false, false⟩ [IterOutcome.sessionCancel]).2.2 = true := by
  decide

/-- Concrete instance of the corrected claim C6 theorem: the
authenticated listening state observed in a normal session satisfies the
invariant, and a cancellation during the credentials fetch consumes no
further outcome. -/
theorem listener_invariant_witness :
    (⟨true, true⟩ : ConnState).is_connected = true ∧
    listener_run ⟨false, false⟩ [IterOutcome.fetchCancel, IterOutcome.sessionEnd] =
      listener_run ⟨false, false⟩ [IterOutcome.fetchCancel] :=
  ⟨listener_invariant_and_cancellation.1 ⟨false, false⟩ [IterOutcome.sessionEnd]
      ⟨true, true⟩ (by decide) rfl,
    (listener_invariant_and_cancellation.2.1 ⟨false, false⟩ IterOutcome.fetchCancel
      [IterOutcome.sessionEnd] (by decide)).1⟩

/-- Claim C7, corrected form: for any jitter at least 0.1 and any
current delay within bounds, the updated delay stays within
WS_RECONNECT_MIN_DELAY and WS_RECONNECT_MAX_DELAY, and a failure update
never decreases the delay; but the success-path update does not reset
the delay to WS_RECONNECT_MIN_DELAY — it resets the intermediate value
to the minimum and then adds the jitter, so the stored delay becomes
min_delay + jitter (at most min_delay + 0.2 given the sampling bound),
strictly above the minimum. -/
theorem reconnect_delay_bounds_monotonicity_and_reset
    (d j : ℚ) (i r : Bool)
    (hd1 : WS_RECONNECT_MIN_DELAY ≤ d) (hd2 : d ≤ WS_RECONNECT_MAX_DELAY)
    (hj : 1/10 ≤ j) :
    (WS_RECONNECT_MIN_DELAY ≤ update_reconnect_delay d i r j ∧
      update_reconnect_delay d i r j ≤ WS_RECONNECT_MAX_DELAY) ∧
    (i = true → r = false → d ≤ update_reconnect_delay d i r j) ∧
    (i = false →
      update_reconnect_delay d i r j =
        min (WS_RECONNECT_MIN_DELAY + j) WS_RECONNECT_MAX_DELAY) ∧
    (i = false → j ≤ 1/5 →
      update_reconnect_delay d i r j = WS_RECONNECT_MIN_DELAY + j) := by
  simp only [update_reconnect_delay, WS_RECONNECT_MIN_DELAY, WS_RECONNECT_MAX_DELAY,
    WS_RECONNECT_FACTOR] at *
  refine ⟨⟨?_, ?_⟩, ?_, ?_, ?_⟩
  · by_cases hri : (r || !i) = true
    · rw [if_pos hri]
      have h1 : (1 : ℚ) ≤ 1 + j := by linarith
      exact le_min h1 (by norm_num)
    · rw [if_neg hri]
      have h2d : (2 : ℚ) ≤ d * 2 := by linarith
      have h1 : (1 : ℚ) ≤ min (d * 2) 60 + j := by
        rcases le_total (d * 2) 60 with h | h
        · rw [min_eq_left h]; linarith
        · rw [min_eq_right h]; linarith
      exact le_min h1 (by norm_num)
  · exact min_le_right _ _
  · intro hi hr
    subst hi hr
    simp only [Bool.not_true, Bool.or_false, if_neg (by simp : ¬false = true)]
    have hdm : d ≤ min (d * 2) 60 := by
      rcases le_total (d * 2) 60 with h | h
      · rw [min_eq_left h]; linarith
      · rw [min_eq_right h]; linarith
    have : d ≤ min (d * 2) 60 + j := by linarith
    exact le_min this hd2
  · intro hi
    subst hi
    simp
  · intro hi hj2
    subst hi
    simp only [Bool.not_false, Bool.or_true, if_true, reduceIte]
    rw [min_eq_left (by linarith)]

/-- Counterexample to claim C7 as stated: after a success update with the
legal jitter value 0.1, the stored delay is 1.1, not WS_RECONNECT_MIN_DELAY. -/
theorem reconnect_delay_reset_adds_jitter :
    update_reconnect_delay 5 false false (1/10) = 11/10 ∧
    (11/10 : ℚ) ≠ WS_RECONNECT_MIN_DELAY := by
  constructor
  · rw [show update_reconnect_delay 5 false false (1/10) =
        min (WS_RECONNECT_MIN_DELAY + 1/10) WS_RECONNECT_MAX_DELAY from rfl]
    rw [WS_RECONNECT_MIN_DELAY, WS_RECONNECT_MAX_DELAY]
    rw [min_eq_left (by norm_num)]
    norm_num
  · rw [WS_RECONNECT_MIN_DELAY]
    norm_num

/-- Concrete instance of the corrected claim C7 theorem at delay 2 with
jitter 0.1: the failure update keeps the delay within bounds and does
not decrease it. -/
theorem reconnect_delay_witness :
    WS_RECONNECT_MIN_DELAY ≤ update_reconnect_delay 2 true false (1/10) ∧
    update_reconnect_delay 2 true false (1/10) ≤ WS_RECONNECT_MAX_DELAY ∧
    (2 : ℚ) ≤ update_reconnect_delay 2 true false (1/10) :=
  ⟨(reconnect_delay_bounds_monotonicity_and_reset 2 (1/10) true false
      (by rw [WS_RECONNECT_MIN_DELAY]; norm_num)
      (by rw [WS_RECONNECT_MAX_DELAY]; norm_num) (by norm_num)).1.1,
    (reconnect_delay_bounds_monotonicity_and_reset 2 (1/10) true false
      (by rw [WS_RECONNECT_MIN_DELAY]; norm_num)
      (by rw [WS_RECONNECT_MAX_DELAY]; norm_num) (by norm_num)).1.2,
    (reconnect_delay_bounds_monotonicity_and_reset 2 (1/10) true false
      (by rw [WS_RECONNECT_MIN_DELAY]; norm_num)
      (by rw [WS_RECONNECT_MAX_DELAY]; norm_num) (by norm_num)).2.1 rfl rfl⟩

/-- Claim C8, corrected form: stripping a string with no escape-sequence
occurrence is the identity, and stripping is idempotent on every string
whose stripped form has no escape-sequence occurrence; unrestricted
idempotence fails because removing a match can bring an unmatched ESC
together with a following byte into a new escape sequence. -/
theorem strip_ansi_identity_and_conditional_idempotence (s : String) :
    (containsEscape s.data = false → strip_ansi s = s) ∧
    (containsEscape (strip_ansi s).data = false →
      strip_ansi (strip_ansi s) = strip_ansi s) := by
  constructor
  · intro h
    exact congrArg String.mk (stripAnsiChars_of_no_escape h)
  · intro h
    exact congrArg String.mk (stripAnsiChars_of_no_escape h)

/-- Counterexample to claim C8 as stated: stripping the four-character
string ESC ESC A B once yields ESC B (the second escape sequence is
removed, leaving the first ESC adjacent to B), and stripping again
yields the empty string, so stripping twice differs from stripping
once. -/
theorem strip_ansi_not_idempotent :
    strip_ansi (strip_ansi ("\x1B\x1BAB")) ≠ strip_ansi ("\x1B\x1BAB") := by
  decide

/-- Concrete instance of the corrected claim C8 theorem: an escape-free
string is fixed, and a string holding one colour sequence strips
idempotently. -/
theorem strip_ansi_identity_witness :
    strip_ansi ("plain text") = "plain text" ∧
    strip_ansi (strip_ansi ("\x1B[31mred")) = strip_ansi ("\x1B[31mred") :=
  ⟨(strip_ansi_identity_and_conditional_idempotence ("plain text")).1 (by decide),
    (strip_ansi_identity_and_conditional_idempotence ("\x1B[31mred")).2 (by decide)⟩

/-- Claim C10: strip_ansi is total on arbitrary Python values — it
always returns a string; a str input is stripped directly, a non-string
whose str() conversion succeeds is stripped after conversion, and a
non-string whose str() conversion raises yields the empty string. -/
theorem strip_ansi_total_on_any (v : PyValue) :
    (∃ s, strip_ansi_any v = s) ∧
    (∀ s, v = PyValue.str s → strip_ansi_any v = strip_ansi s) ∧
    (∀ s, v = PyValue.other (Except.ok s) → strip_ansi_any v = strip_ansi s) ∧
    (∀ e, v = PyValue.other (Except.error e) → strip_ansi_any v = "") := by
  refine ⟨⟨strip_ansi_any v, rfl⟩, ?_, ?_, ?_⟩
  · intro s h
    subst h
    rfl
  · intro s h
    subst h
    rfl
  · intro e h
    subst h
    rfl

/-- Concrete instance of the claim C10 theorem: a failing str()
conversion yields the empty string. -/
theorem strip_ansi_total_on_any_witness :
    strip_ansi_any (PyValue.other (Except.error ())) = "" :=
  (strip_ansi_total_on_any (PyValue.other (Except.error ()))).2.2.2 () rfl
